import Mathlib

/-!
Shallow embedding of the expo-github-cache build-cache provider
(src/index.ts, src/github.ts, src/download.ts, src/utils.ts) and proofs of
the specification claims about it.

The remote GitHub store, the local filesystem, the process environment and
the external helpers (fetch, tar, glob, the package-manifest reader) are
modelled as an explicit `World` value threaded through every operation;
asynchronous JavaScript functions become functions
`World → Except JsError α × World`, where `Except.error` models a thrown
exception.  Every network or filesystem action is also appended to an
effect trace inside the world, so frame claims (no network activity, no
filesystem activity) can be stated about the trace.
-/

namespace ExpoGithubCache

/-- Build platform, the `"ios" | "android"` union type of the source. -/
inductive Platform
  | ios
  | android
deriving DecidableEq, Repr

/-- The string a platform value interpolates to in template literals. -/
def Platform.str : Platform → String
  | .ios => "ios"
  | .android => "android"

/-- `runOptions` from Expo: the fields this plugin reads.  Absent fields of the
JavaScript object are modelled as `none`. -/
structure RunOptions where
  buildCache : Option Bool := none
  variant : Option String := none
  configuration : Option String := none
deriving DecidableEq, Repr

/-- A parsed `package.json`: the two dependency maps the plugin reads
(package name to version string). -/
structure PackageJson where
  dependencies : List (String × String) := []
  devDependencies : List (String × String) := []
deriving DecidableEq, Repr

/-- A thrown JavaScript error: HTTP-like `status` (0 models `undefined`, as on
plain `new Error(...)` values) and `message`. -/
structure JsError where
  status : Nat
  message : String
deriving DecidableEq, Repr

/-- JavaScript truthiness of an optional string (absent and `""` are falsy). -/
def truthyStr : Option String → Bool
  | some s => s ≠ ""
  | none => false

/-- JavaScript truthiness of an optional boolean (absent is falsy). -/
def truthyOptBool : Option Bool → Bool
  | some b => b
  | none => false

/-- Normalizes an optional string by truthiness: a truthy value survives,
`""` and absence collapse to `none`. -/
def truthyOptStr : Option String → Option String
  | some s => if s = "" then none else some s
  | none => none

/-- `path.join` restricted to the joins this code performs. -/
def pathJoin (a b : String) : String := a ++ "/" ++ b

/-- Splits a character list on a separator (the list of components; an empty
input gives one empty component, like `String.splitOn`). -/
def splitOnChar (sep : Char) : List Char → List (List Char)
  | [] => [[]]
  | c :: cs =>
    match splitOnChar sep cs, decide (c = sep) with
    | rest, true => [] :: rest
    | [], false => [[c]]
    | r :: rs, false => (c :: r) :: rs

/-- Joins components with a separator character. -/
def joinWithChar (sep : Char) : List (List Char) → List Char
  | [] => []
  | [x] => x
  | x :: xs => x ++ sep :: joinWithChar sep xs

/-- `path.basename`: the last `/`-separated component. -/
def basename (p : String) : String :=
  String.mk ((splitOnChar '/' p.data).getLastD p.data)

/-- `path.dirname`: everything before the last `/`-separated component. -/
def dirname (p : String) : String :=
  match (splitOnChar '/' p.data).dropLast with
  | [] => "."
  | parts => String.mk (joinWithChar '/' parts)

/-- Model of the external env-paths temp directory for the fixed
`github-build-cache-provider` namespace (the module-level
`APP_TEMP_DIRECTORY` constant). -/
def APP_TEMP_DIRECTORY : String := "/tmp/github-build-cache-provider"

/-- utils.ts `getTemporaryDirectory`. -/
def getTemporaryDirectory : String := APP_TEMP_DIRECTORY

/-- utils.ts `getBuildCacheDirectory`. -/
def getBuildCacheDirectory : String := pathJoin getTemporaryDirectory "build-run-cache"

/-- The pure tag encoding underlying index.ts `getTagName`: the template
literal over fingerprint hash, derived dev-client flag and platform. -/
def encodeTag (fingerprintHash : String) (isDevClient : Bool) (platform : Platform) : String :=
  "fingerprint." ++ fingerprintHash ++ (if isDevClient then ".dev-client" else "") ++
    "." ++ platform.str

/-! ## Remote store, filesystem and world -/

/-- A GitHub release asset as this plugin sees it (`name`, API `url`, `size`). -/
structure Asset where
  name : String
  url : Option String
  size : Nat
deriving DecidableEq, Repr

/-- A GitHub release. -/
structure Release where
  id : Nat
  tagName : String
  name : String
  draft : Bool
  prerelease : Bool
deriving DecidableEq, Repr

/-- The remote GitHub repository state touched by the plugin. -/
structure GitHubState where
  branches : List (String × String) := []
  tagRefs : List (String × String) := []
  tagObjects : List (String × String) := []
  releases : List Release := []
  releaseAssets : List (Nat × Asset) := []
  nextReleaseId : Nat := 0
  nextTagSha : Nat := 0
deriving DecidableEq, Repr

/-- A local filesystem entry. -/
inductive FsEntry
  | file (size : Nat)
  | dir
deriving DecidableEq, Repr

/-- Outcome of streaming a fetch response body to disk: the full byte count on
success, or the bytes already written when the stream fails mid-transfer. -/
inductive StreamResult
  | success (bytes : Nat)
  | failure (bytesWritten : Nat) (e : JsError)
deriving DecidableEq, Repr

/-- A fetch response as download.ts consumes it. -/
structure FetchResponse where
  ok : Bool
  status : Nat
  statusText : String
  hasBody : Bool
  contentLength : Nat
  stream : StreamResult
deriving DecidableEq, Repr

/-- Observable filesystem / network effects, recorded in order. -/
inductive Eff
  | fsReadManifest (projectRoot : String)
  | fsExists (path : String)
  | fsWrite (path : String)
  | fsRemove (path : String)
  | fsMove (src dst : String)
  | fsMkdir (path : String)
  | fsStat (path : String)
  | fsRead (path : String)
  | fsGlob (cwd ext : String)
  | procTar (input output : String)
  | jsTar (input output : String)
  | tarCreate (cwd file : String)
  | netFetch (url : String) (headers : List (String × String))
  | netGetBranch (owner repo branch : String)
  | netGetRef (owner repo ref : String)
  | netCreateTag (owner repo tag : String)
  | netCreateRef (owner repo ref : String)
  | netGetReleaseByTag (owner repo tag : String)
  | netCreateRelease (owner repo tag : String)
  | netUploadAsset (owner repo : String) (releaseId : Nat) (name : String)
deriving DecidableEq, Repr

/-- Whether an effect is a remote (network) action. -/
def Eff.isNet : Eff → Bool
  | .netFetch .. => true
  | .netGetBranch .. => true
  | .netGetRef .. => true
  | .netCreateTag .. => true
  | .netCreateRef .. => true
  | .netGetReleaseByTag .. => true
  | .netCreateRelease .. => true
  | .netUploadAsset .. => true
  | _ => false

/-- The whole execution environment: process env, local filesystem, readable
project manifests, remote store, and oracles for the external fetch, glob and
tar collaborators.  `refFault`, when set, injects a failure into the tag
reference read (modelling a non-404 store error). -/
structure World where
  env : List (String × String) := []
  fs : List (String × FsEntry) := []
  manifests : List (String × PackageJson) := []
  gh : GitHubState := {}
  responses : String → Except JsError FetchResponse := fun _ => .error ⟨0, "network unavailable"⟩
  globResults : String → String → List String := fun _ _ => []
  nativeTar : String → String → Except JsError Unit := fun _ _ => .ok ()
  jsTarResult : String → String → Except JsError Unit := fun _ _ => .ok ()
  tarballSize : String → Nat := fun _ => 0
  refFault : Option JsError := none
  osPlatform : String := "linux"
  nextUuid : Nat := 0
  trace : List Eff := []

/-- Appends an effect to the trace. -/
def World.log (w : World) (e : Eff) : World := { w with trace := w.trace ++ [e] }

/-- Sets (creates or overwrites) a filesystem entry. -/
def World.fsSet (w : World) (p : String) (entry : FsEntry) : World :=
  { w with fs := (p, entry) :: w.fs.filter (fun kv => kv.1 ≠ p) }

/-- Removes a filesystem entry. -/
def World.fsRemove (w : World) (p : String) : World :=
  { w with fs := w.fs.filter (fun kv => kv.1 ≠ p) }

/-- A fresh uuidv7 value (modelled by a counter). -/
def World.freshUuid (w : World) : String × World :=
  ("uuid-" ++ toString w.nextUuid, { w with nextUuid := w.nextUuid + 1 })

/-- `process.env.GITHUB_TOKEN` read with JavaScript truthiness: an unset or
empty variable counts as missing. -/
def getTokenTruthy (w : World) : Option String :=
  match w.env.lookup "GITHUB_TOKEN" with
  | some t => if t = "" then none else some t
  | none => none

/-! ## Octokit endpoint models

Models of the external GitHub REST endpoints exactly as this plugin relies on
them: lookups against the store state, 404-style errors when the addressed
object is absent, and item creation appending to the store. -/

/-- `octokit.rest.repos.getBranch`: head commit SHA of a branch, or a
`Branch not found` error. -/
def ghGetBranch (owner repo branch : String) (w : World) : Except JsError String × World :=
  let w := w.log (.netGetBranch owner repo branch)
  match w.gh.branches.lookup branch with
  | some sha => (.ok sha, w)
  | none => (.error ⟨404, "Branch not found"⟩, w)

/-- `octokit.rest.git.getRef`: resolves `refs/ ++ ref`; 404 when absent.
A set `refFault` injects a store failure instead. -/
def ghGetRef (owner repo ref : String) (w : World) : Except JsError String × World :=
  let w := w.log (.netGetRef owner repo ref)
  match w.refFault with
  | some e => (.error e, w)
  | none =>
    match w.gh.tagRefs.lookup ("refs/" ++ ref) with
    | some sha => (.ok sha, w)
    | none => (.error ⟨404, "Not Found"⟩, w)

/-- Parameters of `octokit.rest.git.createTag` (the source passes the octokit
`createTag` parameter object through `createOrRetrieveGitTag`). -/
structure CreateTagParams where
  owner : String
  repo : String
  tag : String
  message : String
  object : String
  tagType : String
deriving DecidableEq, Repr

/-- `octokit.rest.git.createTag`: creates an annotated tag object pointing at
`params.object` and returns its fresh SHA. -/
def ghCreateTag (params : CreateTagParams) (w : World) : Except JsError String × World :=
  let w := w.log (.netCreateTag params.owner params.repo params.tag)
  let sha := "tagsha-" ++ toString w.gh.nextTagSha
  (.ok sha,
    { w with gh := { w.gh with
        tagObjects := (sha, params.object) :: w.gh.tagObjects
        nextTagSha := w.gh.nextTagSha + 1 } })

/-- `octokit.rest.git.createRef`: creates the reference `ref -> sha`;
the store rejects a duplicate reference. -/
def ghCreateRef (owner repo ref sha : String) (w : World) : Except JsError Unit × World :=
  let w := w.log (.netCreateRef owner repo ref)
  match w.gh.tagRefs.lookup ref with
  | some _ => (.error ⟨422, "Reference already exists"⟩, w)
  | none => (.ok (), { w with gh := { w.gh with tagRefs := (ref, sha) :: w.gh.tagRefs } })

/-- The first release associated with a tag name, if any. -/
def findReleaseByTag (releases : List Release) (tag : String) : Option Release :=
  releases.find? (fun r => r.tagName = tag)

/-- `octokit.rest.repos.getReleaseByTag`: the release for a tag, 404 when
absent. -/
def ghGetReleaseByTag (owner repo tag : String) (w : World) : Except JsError Release × World :=
  let w := w.log (.netGetReleaseByTag owner repo tag)
  match findReleaseByTag w.gh.releases tag with
  | some rel => (.ok rel, w)
  | none => (.error ⟨404, "Not Found"⟩, w)

/-- `octokit.rest.repos.createRelease`: appends a new release with a fresh id. -/
def ghCreateRelease (owner repo tagName name : String) (draft prerelease : Bool)
    (w : World) : Except JsError Release × World :=
  let w := w.log (.netCreateRelease owner repo tagName)
  let rel : Release := ⟨w.gh.nextReleaseId, tagName, name, draft, prerelease⟩
  (.ok rel,
    { w with gh := { w.gh with
        releases := w.gh.releases ++ [rel]
        nextReleaseId := w.gh.nextReleaseId + 1 } })

/-- The `browser_download_url` the store reports for an uploaded asset. -/
def browserDownloadUrl (owner repo : String) (releaseId : Nat) (name : String) : String :=
  "https://github.com/" ++ owner ++ "/" ++ repo ++ "/releases/download/" ++
    toString releaseId ++ "/" ++ name

/-- The asset record the store keeps for an upload of `size` bytes. -/
def uploadedAsset (owner repo : String) (releaseId : Nat) (name : String) (size : Nat) : Asset :=
  ⟨name, some (browserDownloadUrl owner repo releaseId name), size⟩

/-- `octokit.rest.repos.uploadReleaseAsset`: stores the asset bytes under the
release and returns its `browser_download_url`. -/
def ghUploadReleaseAsset (owner repo : String) (releaseId : Nat) (name : String) (size : Nat)
    (w : World) : Except JsError String × World :=
  let w := w.log (.netUploadAsset owner repo releaseId name)
  let asset := uploadedAsset owner repo releaseId name size
  (.ok (browserDownloadUrl owner repo releaseId name),
    { w with gh := { w.gh with releaseAssets := w.gh.releaseAssets ++ [(releaseId, asset)] } })

/-! ## Local filesystem primitives -/

/-- `fs.existsSync` (and `fs.pathExists`). -/
def fsExistsSync (p : String) (w : World) : Bool × World :=
  (w.fs.lookup p ≠ none, w.log (.fsExists p))

/-- `fs.stat`: the entry at a path, ENOENT-style error when absent. -/
def fsStat (p : String) (w : World) : Except JsError FsEntry × World :=
  let w := w.log (.fsStat p)
  match w.fs.lookup p with
  | some entry => (.ok entry, w)
  | none => (.error ⟨0, "ENOENT: no such file or directory, stat " ++ p⟩, w)

/-- `fs.readFile`: the size of the file at a path (file contents are modelled
by their byte count), ENOENT-style error when absent or a directory. -/
def fsReadFile (p : String) (w : World) : Except JsError Nat × World :=
  let w := w.log (.fsRead p)
  match w.fs.lookup p with
  | some (.file n) => (.ok n, w)
  | some .dir => (.error ⟨0, "EISDIR: illegal operation on a directory, read " ++ p⟩, w)
  | none => (.error ⟨0, "ENOENT: no such file or directory, open " ++ p⟩, w)

/-- `fs.mkdir`/`fs.mkdirp`/`fs.ensureDir`: records the directory. -/
def fsMkdir (p : String) (w : World) : World :=
  (w.fsSet p .dir).log (.fsMkdir p)

/-- `fs.move`: moves a completed artifact into place (fs-extra semantics:
fails when the source is absent or the destination already exists). -/
def fsMove (src dst : String) (w : World) : Except JsError Unit × World :=
  let w := w.log (.fsMove src dst)
  match w.fs.lookup src with
  | none => (.error ⟨0, "ENOENT: no such file or directory, rename " ++ src⟩, w)
  | some entry =>
    match w.fs.lookup dst with
    | some _ => (.error ⟨0, "dest already exists."⟩, w)
    | none => (.ok (), (w.fsRemove src).fsSet dst entry)

/-! ## utils.ts -/

/-- Model of the external package-manifest reader (`@expo/config`
`getPackageJson`): returns the parsed manifest of the project, and raises a
configuration error when the manifest is missing or unreadable (the reader
throws when `package.json` cannot be found at the project root). -/
def getPackageJson (projectRoot : String) (w : World) : Except JsError PackageJson × World :=
  let w := w.log (.fsReadManifest projectRoot)
  match w.manifests.lookup projectRoot with
  | some pkg => (.ok pkg, w)
  | none =>
    (.error ⟨0, "The expected package.json path: " ++ projectRoot ++
      "/package.json does not exist"⟩, w)

/-- utils.ts `detectDevClientDependency`: truthiness of `expo-dev-client`
among dependencies or devDependencies; performs no error handling around the
manifest read. -/
def detectDevClientDependency (projectRoot : String) (w : World) : Except JsError Bool × World :=
  match getPackageJson projectRoot w with
  | (.error e, w) => (.error e, w)
  | (.ok pkg, w) =>
    (.ok (truthyStr (pkg.dependencies.lookup "expo-dev-client") ||
          truthyStr (pkg.devDependencies.lookup "expo-dev-client")), w)

/-- utils.ts `isDevClientBuild`. -/
def isDevClientBuild (runOptions : RunOptions) (projectRoot : String) (w : World) :
    Except JsError Bool × World :=
  match detectDevClientDependency projectRoot w with
  | (.error e, w) => (.error e, w)
  | (.ok dep, w) =>
    if !dep then (.ok false, w)
    else
      match runOptions.variant with
      | some v => (.ok (v = "debug"), w)
      | none =>
        match runOptions.configuration with
        | some c => (.ok (c = "Debug"), w)
        | none => (.ok true, w)

/-- Pure mirror of the dev-client decision for a manifest already in hand;
used to phrase claims (the effectful `isDevClientBuild` computes exactly this
when the manifest read succeeds). -/
def devClientDecision (pkg : PackageJson) (runOptions : RunOptions) : Bool :=
  if !(truthyStr (pkg.dependencies.lookup "expo-dev-client") ||
       truthyStr (pkg.devDependencies.lookup "expo-dev-client")) then false
  else
    match runOptions.variant with
    | some v => v = "debug"
    | none =>
      match runOptions.configuration with
      | some c => c = "Debug"
      | none => true

/-! ## github.ts (the release registry) -/

/-- JavaScript `String.prototype.includes`: substring containment. -/
def strIncludes (s sub : String) : Bool := decide (sub.data <:+: s.data)

/-- The default-branch candidates tried in order by
`findDefaultBranchCommit`. -/
def defaultBranchCandidates : List String := ["main", "master"]

/-- The loop body of github.ts `findDefaultBranchCommit`: tries each branch
name in sequence; a `Branch not found` failure advances (or, at the last
candidate, aborts), any other failure rethrows. -/
def findDefaultBranchCommitLoop (owner repo : String) :
    List String → World → Except JsError String × World
  | [], w => (.error ⟨0, "Could not determine repository default branch"⟩, w)
  | branchName :: rest, w =>
    match ghGetBranch owner repo branchName w with
    | (.ok sha, w) => (.ok sha, w)
    | (.error e, w) =>
      if strIncludes e.message "Branch not found" then
        if branchName = defaultBranchCandidates.getLastD "" then
          (.error ⟨0, "Could not find any default branch in " ++ owner ++ "/" ++ repo⟩, w)
        else findDefaultBranchCommitLoop owner repo rest w
      else (.error e, w)

/-- github.ts `findDefaultBranchCommit`. -/
def findDefaultBranchCommit (owner repo : String) (w : World) : Except JsError String × World :=
  findDefaultBranchCommitLoop owner repo defaultBranchCandidates w

/-- github.ts `createOrRetrieveGitTag`: reads the existing tag reference and
reuses it; only on a 404 does it create the annotated tag object and its
reference.  Any non-404 read failure is rethrown. -/
def createOrRetrieveGitTag (params : CreateTagParams) (w : World) :
    Except JsError (String × Bool) × World :=
  let refName := "refs/tags/" ++ params.tag
  match ghGetRef params.owner params.repo ("tags/" ++ params.tag) w with
  | (.ok sha, w) => (.ok (sha, true), w)
  | (.error err, w) =>
    if err.status ≠ 404 then (.error err, w)
    else
      match ghCreateTag params w with
      | (.error e, w) => (.error e, w)
      | (.ok tagSha, w) =>
        match ghCreateRef params.owner params.repo refName tagSha w with
        | (.error e, w) => (.error e, w)
        | (.ok _, w) => (.ok (tagSha, false), w)

/-- github.ts `AssetUploadParams`. -/
structure AssetUploadParams where
  owner : String
  repo : String
  releaseId : Nat
  binaryPath : String
deriving DecidableEq, Repr

/-- Tail of github.ts `uploadReleaseAsset` after the possible directory
packaging: read the file bytes and upload them to the release. -/
def uploadReleaseAssetData (params : AssetUploadParams) (filePath name : String) (w : World) :
    Except JsError String × World :=
  match fsReadFile filePath w with
  | (.error e, w) => (.error e, w)
  | (.ok fileData, w) =>
    ghUploadReleaseAsset params.owner params.repo params.releaseId name fileData w

/-- github.ts `uploadReleaseAsset`: a directory artifact is first archived
into a fresh tarball (named by a uuid, parented at the temp directory, rooted
at the leaf directory name) and uploaded as `name.tar.gz`; a file artifact is
uploaded as-is. -/
def uploadReleaseAsset (params : AssetUploadParams) (w : World) :
    Except JsError String × World :=
  let filePath := params.binaryPath
  let name := basename filePath
  match fsStat filePath w with
  | (.error e, w) => (.error e, w)
  | (.ok (.file _), w) => uploadReleaseAssetData params filePath name w
  | (.ok .dir, w) =>
    let w := fsMkdir getTemporaryDirectory w
    let (u, w) := w.freshUuid
    let tarPath := pathJoin getTemporaryDirectory (u ++ ".tar.gz")
    let parentPath := dirname filePath
    let w := (w.fsSet tarPath (.file (w.tarballSize filePath))).log (.tarCreate parentPath tarPath)
    uploadReleaseAssetData params tarPath (name ++ ".tar.gz") w

/-- github.ts `ReleasePublishConfig`. -/
structure ReleasePublishConfig where
  token : String
  owner : String
  repo : String
  tagName : String
  binaryPath : String
deriving DecidableEq, Repr

/-- The body of github.ts `createReleaseAndUploadAsset` inside its try block:
resolve the default branch head, create or reuse the tag, fetch the existing
release when the tag already existed (otherwise create a non-draft prerelease),
then upload the asset. -/
def createReleaseAndUploadAssetTry (cfg : ReleasePublishConfig) (w : World) :
    Except JsError String × World :=
  match findDefaultBranchCommit cfg.owner cfg.repo w with
  | (.error e, w) => (.error e, w)
  | (.ok commitSha, w) =>
    match createOrRetrieveGitTag
        ⟨cfg.owner, cfg.repo, cfg.tagName, cfg.tagName, commitSha, "commit"⟩ w with
    | (.error e, w) => (.error e, w)
    | (.ok (_, alreadyExists), w) =>
      match
        ((if alreadyExists then
          match ghGetReleaseByTag cfg.owner cfg.repo cfg.tagName w with
          | (.error e, w) => (.error e, w)
          | (.ok existingRelease, w) => (.ok existingRelease.id, w)
        else
          match ghCreateRelease cfg.owner cfg.repo cfg.tagName cfg.tagName false true w with
          | (.error e, w) => (.error e, w)
          | (.ok newRelease, w) => (.ok newRelease.id, w)) :
          Except JsError Nat × World) with
      | (.error e, w) => (.error e, w)
      | (.ok releaseId, w) =>
        uploadReleaseAsset ⟨cfg.owner, cfg.repo, releaseId, cfg.binaryPath⟩ w

/-- github.ts `createReleaseAndUploadAsset`: the try body with its catch
clause, which logs and rethrows every failure wrapped in a
`GitHub release failed` error. -/
def createReleaseAndUploadAsset (cfg : ReleasePublishConfig) (w : World) :
    Except JsError String × World :=
  match createReleaseAndUploadAssetTry cfg w with
  | (.ok url, w) => (.ok url, w)
  | (.error e, w) => (.error ⟨0, "GitHub release failed: " ++ e.message⟩, w)

/-- github.ts `AssetSearchConfig`. -/
structure AssetSearchConfig where
  token : String
  owner : String
  repo : String
  tag : String
deriving DecidableEq, Repr

/-- github.ts `fetchReleaseAssetsByTag`: the assets of the release for a tag;
a 404 becomes the benign `No release found with tag` error, anything else is
rethrown after being logged. -/
def fetchReleaseAssetsByTag (cfg : AssetSearchConfig) (w : World) :
    Except JsError (List Asset) × World :=
  match ghGetReleaseByTag cfg.owner cfg.repo cfg.tag w with
  | (.ok release, w) =>
    (.ok ((w.gh.releaseAssets.filter (fun a => a.1 = release.id)).map Prod.snd), w)
  | (.error e, w) =>
    if e.status = 404 then (.error ⟨0, "No release found with tag " ++ cfg.tag⟩, w)
    else (.error e, w)

/-! ## download.ts (the artifact transport) -/

/-- The characters following the first `://` of a URL, when present. -/
def afterSchemeSep : List Char → Option (List Char)
  | ':' :: '/' :: '/' :: rest => some rest
  | _ :: rest => afterSchemeSep rest
  | [] => none

/-- The characters of a list up to (excluding) a stop character. -/
def takeUntilChar (stop : Char) : List Char → List Char
  | [] => []
  | c :: cs => if c = stop then [] else c :: takeUntilChar stop cs

/-- Model of WHATWG URL parsing as download.ts uses it: the hostname of an
http(s)-style URL (the authority after the scheme separator, up to the first
slash, with any port stripped), `none` when the string has no scheme
separator and fails to parse. -/
def hostnameOf (url : String) : Option String :=
  match afterSchemeSep url.data with
  | none => none
  | some rest => some (String.mk (takeUntilChar ':' (takeUntilChar '/' rest)))

/-- The request headers download.ts builds: always `Accept`, plus an
`Authorization` header when a token is present, using the `token` scheme for
the `api.github.com` host and the `Bearer` scheme for every other (or
unparseable) destination. -/
def downloadHeaders (token : Option String) (url : String) : List (String × String) :=
  let isGitHubApiUrl : Bool :=
    match hostnameOf url with
    | some h => h = "api.github.com"
    | none => false
  [("Accept", "application/octet-stream")] ++
    (match token with
     | some t => [("Authorization", (if isGitHubApiUrl then "token " else "Bearer ") ++ t)]
     | none => [])

/-- The catch clause of download.ts `downloadFileAsync`: delete the
destination file when present, then rethrow. -/
def downloadCatch (outputPath : String) (e : JsError) (w : World) :
    Except JsError Unit × World :=
  match fsExistsSync outputPath w with
  | (true, w) => (.error e, (w.fsRemove outputPath).log (.fsRemove outputPath))
  | (false, w) => (.error e, w)

/-- download.ts `downloadFileAsync`: fetch with the selected headers, reject a
non-ok or bodyless response, then stream the body to the destination file
(the content-length only drives progress reporting; both pipeline branches
write identically).  Any failure runs the catch clause above. -/
def downloadFileAsync (url outputPath : String) (w : World) : Except JsError Unit × World :=
  let headers := downloadHeaders (getTokenTruthy w) url
  let w := w.log (.netFetch url headers)
  match w.responses url with
  | .error e => downloadCatch outputPath e w
  | .ok response =>
    if !response.ok || !response.hasBody then
      downloadCatch outputPath
        ⟨0, "Failed to download file from " ++ url ++ ", because " ++
          toString response.status ++ " " ++ response.statusText⟩ w
    else
      match response.stream with
      | .success n => (.ok (), (w.fsSet outputPath (.file n)).log (.fsWrite outputPath))
      | .failure p e =>
        downloadCatch outputPath e ((w.fsSet outputPath (.file p)).log (.fsWrite outputPath))

/-- download.ts `maybeCacheAppAsync`: move the artifact into the cache path
when one was supplied, creating its parent directory first. -/
def maybeCacheAppAsync (appPath : String) (cachedAppPath : Option String) (w : World) :
    Except JsError String × World :=
  match cachedAppPath with
  | some c =>
    let w := fsMkdir (dirname c) w
    match fsMove appPath c w with
    | (.error e, w) => (.error e, w)
    | (.ok _, w) => (.ok c, w)
  | none => (.ok appPath, w)

/-- The JS fallback half of download.ts `tarExtractAsync`. -/
def tarExtractJs (input output : String) (w : World) : Except JsError Unit × World :=
  let w := w.log (.jsTar input output)
  match w.jsTarResult input output with
  | .ok _ => (.ok (), w)
  | .error e => (.error e, w)

/-- download.ts `tarExtractAsync`: prefer the native tar invocation off
Windows; on its failure warn and fall back to the JS tar module (whose own
failures propagate). -/
def tarExtractAsync (input output : String) (w : World) : Except JsError Unit × World :=
  if w.osPlatform ≠ "win32" then
    let w := w.log (.procTar input output)
    match w.nativeTar input output with
    | .ok _ => (.ok (), w)
    | .error _ => tarExtractJs input output w
  else tarExtractJs input output w

/-- download.ts `getAppPathAsync`: glob the extracted tree for the requested
extension; zero matches is an error, otherwise the first match (joined onto
the output directory) is selected. -/
def getAppPathAsync (outputDir applicationExtension : String) (w : World) :
    Except JsError String × World :=
  let w := w.log (.fsGlob outputDir applicationExtension)
  match w.globResults outputDir applicationExtension with
  | [] => (.error ⟨0, "Did not find any installable apps inside tarball."⟩, w)
  | p :: _ => (.ok (pathJoin outputDir p), w)

/-- download.ts `downloadAndMaybeExtractAppAsync`: Android downloads the APK
directly; iOS downloads an archive, extracts it and locates the `.app`
bundle; both then move the artifact into the cache path when given. -/
def downloadAndMaybeExtractAppAsync (url : String) (platform : Platform)
    (cachedAppPath : Option String) (w : World) : Except JsError String × World :=
  let (u1, w) := w.freshUuid
  let outputDir := pathJoin getTemporaryDirectory u1
  let w := fsMkdir outputDir w
  match platform with
  | .android =>
    let (u2, w) := w.freshUuid
    let apkFilePath := pathJoin outputDir (u2 ++ ".apk")
    match downloadFileAsync url apkFilePath w with
    | (.error e, w) => (.error e, w)
    | (.ok _, w) => maybeCacheAppAsync apkFilePath cachedAppPath w
  | .ios =>
    let (u2, w) := w.freshUuid
    let tmpArchivePathDir := pathJoin getTemporaryDirectory u2
    let w := fsMkdir tmpArchivePathDir w
    let (u3, w) := w.freshUuid
    let tmpArchivePath := pathJoin tmpArchivePathDir (u3 ++ ".tar.gz")
    match downloadFileAsync url tmpArchivePath w with
    | (.error e, w) => (.error e, w)
    | (.ok _, w) =>
      match tarExtractAsync tmpArchivePath outputDir w with
      | (.error e, w) => (.error e, w)
      | (.ok _, w) =>
        match getAppPathAsync outputDir "app" w with
        | (.error e, w) => (.error e, w)
        | (.ok appPath, w) => maybeCacheAppAsync appPath cachedAppPath w

/-! ## index.ts (the cache orchestrator) -/

/-- The `githubConfig` argument of both public operations. -/
structure RepoConfig where
  owner : String
  repo : String
deriving DecidableEq, Repr

/-- `ResolveBuildCacheProps` as this plugin reads it. -/
structure ResolveProps where
  projectRoot : String
  platform : Platform
  fingerprintHash : String
  runOptions : RunOptions
deriving DecidableEq, Repr

/-- `UploadBuildCacheProps` as this plugin reads it. -/
structure UploadProps where
  projectRoot : String
  fingerprintHash : String
  runOptions : RunOptions
  buildPath : String
  platform : Platform
deriving DecidableEq, Repr

/-- index.ts `getTagName`: the tag encoding applied to the derived dev-client
flag (a manifest-reader failure inside the detection propagates). -/
def getTagName (fingerprintHash projectRoot : String) (runOptions : RunOptions)
    (platform : Platform) (w : World) : Except JsError String × World :=
  match isDevClientBuild runOptions projectRoot w with
  | (.error e, w) => (.error e, w)
  | (.ok isDevClient, w) => (.ok (encodeTag fingerprintHash isDevClient platform), w)

/-- index.ts `getCachedAppPath`: the deterministic local cache path for the
tag, with the platform extension. -/
def getCachedAppPath (props : ResolveProps) (w : World) : Except JsError String × World :=
  match getTagName props.fingerprintHash props.projectRoot props.runOptions props.platform w with
  | (.error e, w) => (.error e, w)
  | (.ok tag, w) =>
    (.ok (pathJoin getBuildCacheDirectory
      (tag ++ "." ++ (if props.platform = .ios then "app" else "apk"))), w)

/-- The body of the try block of index.ts `fetchCachedBuild`: recompute the
tag, require the token (absence logs and returns null), fetch the release
assets (zero assets or a falsy first URL return null), then download and
extract (its own failures are caught by the inner catch and fall through to
null, as does a falsy result). -/
def fetchCachedBuildTry (props : ResolveProps) (cfg : RepoConfig) (cachedAppPath : String)
    (w : World) : Except JsError (Option String) × World :=
  match getTagName props.fingerprintHash props.projectRoot props.runOptions props.platform w with
  | (.error e, w) => (.error e, w)
  | (.ok tag, w) =>
    match getTokenTruthy w with
    | none => (.ok none, w)
    | some githubToken =>
      match fetchReleaseAssetsByTag ⟨githubToken, cfg.owner, cfg.repo, tag⟩ w with
      | (.error e, w) => (.error e, w)
      | (.ok assets, w) =>
        match assets with
        | [] => (.ok none, w)
        | asset0 :: _ =>
          match truthyOptStr asset0.url with
          | none => (.ok none, w)
          | some buildDownloadURL =>
            match downloadAndMaybeExtractAppAsync buildDownloadURL props.platform
                (some cachedAppPath) w with
            | (.ok result, w) =>
              if result ≠ "" then (.ok (some result), w) else (.ok none, w)
            | (.error _, w) => (.ok none, w)

/-- index.ts `fetchCachedBuild` (the public resolve operation): gate on the
cache flag, compute the deterministic cache path (outside the try block),
short-circuit on a local hit, then run the guarded lookup whose failures all
collapse to null. -/
def fetchCachedBuild (props : ResolveProps) (cfg : RepoConfig) (w : World) :
    Except JsError (Option String) × World :=
  if truthyOptBool props.runOptions.buildCache then
    match getCachedAppPath props w with
    | (.error e, w) => (.error e, w)
    | (.ok cachedAppPath, w) =>
      match fsExistsSync cachedAppPath w with
      | (true, w) => (.ok (some cachedAppPath), w)
      | (false, w) =>
        match fetchCachedBuildTry props cfg cachedAppPath w with
        | (.ok r, w) => (.ok r, w)
        | (.error _, w) => (.ok none, w)
  else (.ok none, w)

/-- The body of the try block of index.ts `publishBuildCache`: compute the
tag, require the token (absence logs and returns null), then run the full
release-and-upload sequence. -/
def publishBuildCacheTry (props : UploadProps) (cfg : RepoConfig) (w : World) :
    Except JsError (Option String) × World :=
  match getTagName props.fingerprintHash props.projectRoot props.runOptions props.platform w with
  | (.error e, w) => (.error e, w)
  | (.ok tagName, w) =>
    match getTokenTruthy w with
    | none => (.ok none, w)
    | some githubToken =>
      match createReleaseAndUploadAsset
          ⟨githubToken, cfg.owner, cfg.repo, tagName, props.buildPath⟩ w with
      | (.error e, w) => (.error e, w)
      | (.ok result, w) => (.ok (some result), w)

/-- index.ts `publishBuildCache` (the public upload operation): the try body
with its catch clause collapsing every failure to null. -/
def publishBuildCache (props : UploadProps) (cfg : RepoConfig) (w : World) :
    Except JsError (Option String) × World :=
  match publishBuildCacheTry props cfg w with
  | (.ok r, w) => (.ok r, w)
  | (.error _, w) => (.ok none, w)

/-! ## Helper lemmas -/

/-- Two strings with equal character data are equal. -/
theorem string_data_ext {s t : String} (h : s.data = t.data) : s = t := by
  cases s; cases t; exact congrArg String.mk (by simpa using h)

@[simp] theorem log_env (w : World) (e : Eff) : (w.log e).env = w.env := rfl

@[simp] theorem log_fs (w : World) (e : Eff) : (w.log e).fs = w.fs := rfl

@[simp] theorem log_manifests (w : World) (e : Eff) : (w.log e).manifests = w.manifests := rfl

@[simp] theorem log_gh (w : World) (e : Eff) : (w.log e).gh = w.gh := rfl

@[simp] theorem log_responses (w : World) (e : Eff) : (w.log e).responses = w.responses := rfl

@[simp] theorem log_globResults (w : World) (e : Eff) :
    (w.log e).globResults = w.globResults := rfl

@[simp] theorem log_nativeTar (w : World) (e : Eff) : (w.log e).nativeTar = w.nativeTar := rfl

@[simp] theorem log_jsTarResult (w : World) (e : Eff) :
    (w.log e).jsTarResult = w.jsTarResult := rfl

@[simp] theorem log_tarballSize (w : World) (e : Eff) :
    (w.log e).tarballSize = w.tarballSize := rfl

@[simp] theorem log_refFault (w : World) (e : Eff) : (w.log e).refFault = w.refFault := rfl

@[simp] theorem log_osPlatform (w : World) (e : Eff) : (w.log e).osPlatform = w.osPlatform := rfl

@[simp] theorem log_nextUuid (w : World) (e : Eff) : (w.log e).nextUuid = w.nextUuid := rfl

@[simp] theorem log_trace (w : World) (e : Eff) : (w.log e).trace = w.trace ++ [e] := rfl

@[simp] theorem getTokenTruthy_log (w : World) (e : Eff) :
    getTokenTruthy (w.log e) = getTokenTruthy w := rfl

@[simp] theorem fsSet_env (w : World) (p : String) (entry : FsEntry) :
    (w.fsSet p entry).env = w.env := rfl

@[simp] theorem fsSet_manifests (w : World) (p : String) (entry : FsEntry) :
    (w.fsSet p entry).manifests = w.manifests := rfl

@[simp] theorem fsSet_gh (w : World) (p : String) (entry : FsEntry) :
    (w.fsSet p entry).gh = w.gh := rfl

@[simp] theorem fsSet_trace (w : World) (p : String) (entry : FsEntry) :
    (w.fsSet p entry).trace = w.trace := rfl

@[simp] theorem fsSet_fs (w : World) (p : String) (entry : FsEntry) :
    (w.fsSet p entry).fs = (p, entry) :: w.fs.filter (fun kv => kv.1 ≠ p) := rfl

@[simp] theorem fsRemove_fs (w : World) (p : String) :
    (w.fsRemove p).fs = w.fs.filter (fun kv => kv.1 ≠ p) := rfl

@[simp] theorem fsRemove_trace (w : World) (p : String) : (w.fsRemove p).trace = w.trace := rfl

/-- The truthiness of `expo-dev-client` in a manifest (the boolean
`detectDevClientDependency` computes from a readable manifest). -/
def depTruthy (pkg : PackageJson) : Bool :=
  truthyStr (pkg.dependencies.lookup "expo-dev-client") ||
    truthyStr (pkg.devDependencies.lookup "expo-dev-client")

/-- With a readable manifest, the dev-client detection computes exactly the
pure decision. -/
theorem isDevClientBuild_ok (w : World) (pr : String) (pkg : PackageJson) (ro : RunOptions)
    (hm : w.manifests.lookup pr = some pkg) :
    isDevClientBuild ro pr w = (.ok (devClientDecision pkg ro), w.log (.fsReadManifest pr)) := by
  cases hd1 : truthyStr (pkg.dependencies.lookup "expo-dev-client") <;>
    cases hd2 : truthyStr (pkg.devDependencies.lookup "expo-dev-client") <;>
      cases hv : ro.variant <;>
        cases hc : ro.configuration <;>
          simp_all [isDevClientBuild, detectDevClientDependency, getPackageJson,
            devClientDecision]

/-- The deterministic local cache path, given the manifest of the project. -/
def cachedAppPathPure (props : ResolveProps) (pkg : PackageJson) : String :=
  pathJoin getBuildCacheDirectory
    (encodeTag props.fingerprintHash (devClientDecision pkg props.runOptions) props.platform ++
      "." ++ (if props.platform = .ios then "app" else "apk"))

/-- With a readable manifest, `getCachedAppPath` computes the deterministic
path. -/
theorem getCachedAppPath_ok (props : ResolveProps) (w : World) (pkg : PackageJson)
    (hm : w.manifests.lookup props.projectRoot = some pkg) :
    getCachedAppPath props w =
      (.ok (cachedAppPathPure props pkg), w.log (.fsReadManifest props.projectRoot)) := by
  simp [getCachedAppPath, getTagName,
    isDevClientBuild_ok w props.projectRoot pkg props.runOptions hm, cachedAppPathPure]

/-- With a readable manifest, `getTagName` computes the pure tag encoding. -/
theorem getTagName_ok (fingerprintHash pr : String) (ro : RunOptions) (platform : Platform)
    (w : World) (pkg : PackageJson) (hm : w.manifests.lookup pr = some pkg) :
    getTagName fingerprintHash pr ro platform w =
      (.ok (encodeTag fingerprintHash (devClientDecision pkg ro) platform),
        w.log (.fsReadManifest pr)) := by
  simp [getTagName, isDevClientBuild_ok w pr pkg ro hm]

/-! ## Claims -/

/-- C2: for every fingerprint hash h, platform p and dev-client flag d, the
tag encoding deterministically returns
"fingerprint." ++ h ++ (".dev-client" when d) ++ "." ++ p; in particular the
two quoted examples hold, and changing any one of the three inputs changes
the resulting tag. -/
theorem c2_tag_codec_encoding :
    (∀ (h : String) (d : Bool) (p : Platform),
      encodeTag h d p =
        "fingerprint." ++ h ++ (if d then ".dev-client" else "") ++ "." ++ p.str)
    ∧ encodeTag "h" false .ios = "fingerprint.h.ios"
    ∧ encodeTag "h" true .android = "fingerprint.h.dev-client.android"
    ∧ (∀ (h h' : String) (d : Bool) (p : Platform),
        h ≠ h' → encodeTag h d p ≠ encodeTag h' d p)
    ∧ (∀ (h : String) (d : Bool) (p p' : Platform),
        p ≠ p' → encodeTag h d p ≠ encodeTag h d p')
    ∧ (∀ (h : String) (p : Platform), encodeTag h true p ≠ encodeTag h false p) := by
  refine ⟨fun _ _ _ => rfl, by decide, by decide, ?_, ?_, ?_⟩
  · intro h h' d p hne heq
    apply hne
    apply string_data_ext
    have hd := congrArg String.data heq
    simp only [encodeTag, String.data_append, List.append_assoc] at hd
    exact List.append_cancel_right (List.append_cancel_left hd)
  · intro h d p p' hne heq
    have hd := congrArg (fun s => s.data.length) heq
    cases p <;> cases p' <;>
      first
      | exact absurd rfl hne
      | (simp [Platform.str, encodeTag, String.data_append, List.length_append] at hd; try omega)
  · intro h p heq
    have hd := congrArg (fun s => s.data.length) heq
    simp [encodeTag, String.data_append, List.length_append] at hd
    try omega

/-- Witness for C2: the injectivity conjuncts applied at concrete inputs. -/
theorem c2_tag_codec_encoding_witness :
    encodeTag "a" false .ios ≠ encodeTag "b" false .ios
    ∧ encodeTag "a" false .ios ≠ encodeTag "a" false .android
    ∧ encodeTag "a" true .ios ≠ encodeTag "a" false .ios :=
  ⟨c2_tag_codec_encoding.2.2.2.1 "a" "b" false .ios (by decide),
   c2_tag_codec_encoding.2.2.2.2.1 "a" false .ios .android (by decide),
   c2_tag_codec_encoding.2.2.2.2.2 "a" .ios⟩

/-- C7: with the development-client package a (truthy) dependency, the
detection returns variant = "debug" when variant is present, otherwise
configuration = "Debug" (case-sensitive) when configuration is present,
otherwise true; without the dependency it returns false regardless of
variant and configuration. -/
theorem c7_dev_client_decision (w : World) (pr : String) (pkg : PackageJson) (ro : RunOptions)
    (hm : w.manifests.lookup pr = some pkg) :
    (depTruthy pkg = true →
      isDevClientBuild ro pr w =
        (.ok (match ro.variant, ro.configuration with
              | some v, _ => decide (v = "debug")
              | none, some c => decide (c = "Debug")
              | none, none => true),
          w.log (.fsReadManifest pr)))
    ∧ (depTruthy pkg = false →
      isDevClientBuild ro pr w = (.ok false, w.log (.fsReadManifest pr))) := by
  constructor <;> intro hdep <;>
    rw [isDevClientBuild_ok w pr pkg ro hm] <;>
      cases hv : ro.variant <;> cases hc : ro.configuration <;>
        simp_all [devClientDecision, depTruthy]

/-- A manifest listing `expo-dev-client` as a direct dependency. -/
def pkgWithDep : PackageJson := { dependencies := [("expo-dev-client", "1.0.0")] }

/-- A manifest without the dev-client dependency. -/
def pkgNoDep : PackageJson := {}

/-- A world with one project holding the dev-client dependency and one
without it. -/
def wManifests : World := { manifests := [("/proj", pkgWithDep), ("/bare", pkgNoDep)] }

/-- Witness for C7: both conjuncts applied at concrete projects. -/
theorem c7_dev_client_decision_witness :
    isDevClientBuild { variant := some "debug" } "/proj" wManifests =
      (.ok true, wManifests.log (.fsReadManifest "/proj"))
    ∧ isDevClientBuild { variant := some "release" } "/bare" wManifests =
      (.ok false, wManifests.log (.fsReadManifest "/bare")) := by
  constructor
  · have h := (c7_dev_client_decision wManifests "/proj" pkgWithDep
      { variant := some "debug" } (by decide)).1 (by decide)
    simpa using h
  · have h := (c7_dev_client_decision wManifests "/bare" pkgNoDep
      { variant := some "release" } (by decide)).2 (by decide)
    simpa using h

/-- A world with no readable manifest at any project root. -/
def wNoManifest : World := {}

/-- C4 counterexample: at a project root whose manifest is missing, the
dev-client dependency detection does not return false — the manifest-reader
error propagates as a thrown error, refuting the claim at this input. -/
theorem c4_missing_manifest_counterexample :
    (detectDevClientDependency "/proj" wNoManifest).1 ≠ .ok false
    ∧ (detectDevClientDependency "/proj" wNoManifest).1 =
        .error ⟨0, "The expected package.json path: /proj/package.json does not exist"⟩ := by
  have h2 : (detectDevClientDependency "/proj" wNoManifest).1 =
      .error ⟨0, "The expected package.json path: /proj/package.json does not exist"⟩ := rfl
  exact ⟨by rw [h2]; simp, h2⟩

/-- C4 amended: with a readable manifest the detection returns the truthiness
of the development-client entry among dependencies and devDependencies (false
when absent) and never throws; with a missing or unreadable manifest the
manifest-reader error propagates uncaught instead of being treated as "no
dependency". -/
theorem c4_dev_client_dependency_amended (w : World) (pr : String) :
    (∀ pkg, w.manifests.lookup pr = some pkg →
      detectDevClientDependency pr w = (.ok (depTruthy pkg), w.log (.fsReadManifest pr)))
    ∧ (w.manifests.lookup pr = none →
      detectDevClientDependency pr w =
        (.error ⟨0, "The expected package.json path: " ++ pr ++ "/package.json does not exist"⟩,
          w.log (.fsReadManifest pr))) := by
  constructor
  · intro pkg hm
    simp [detectDevClientDependency, getPackageJson, hm, depTruthy]
  · intro hm
    simp [detectDevClientDependency, getPackageJson, hm]

/-- Witness for C4 amended: both conjuncts applied at concrete projects. -/
theorem c4_dev_client_dependency_amended_witness :
    detectDevClientDependency "/bare" wManifests =
      (.ok false, wManifests.log (.fsReadManifest "/bare"))
    ∧ (detectDevClientDependency "/gone" wManifests).1 =
        .error ⟨0, "The expected package.json path: /gone/package.json does not exist"⟩ := by
  constructor
  · have h := (c4_dev_client_dependency_amended wManifests "/bare").1 pkgNoDep (by decide)
    simpa using h
  · have h := (c4_dev_client_dependency_amended wManifests "/gone").2 (by decide)
    simp [h]

/-- C5: when the run options do not enable the build cache, resolve returns
null immediately with the world completely unchanged — no filesystem or
network activity — regardless of every other field. -/
theorem c5_resolve_gate (props : ResolveProps) (cfg : RepoConfig) (w : World)
    (hflag : truthyOptBool props.runOptions.buildCache = false) :
    fetchCachedBuild props cfg w = (.ok none, w) := by
  simp [fetchCachedBuild, hflag]

/-- Witness for C5: the gate applied with an absent flag, empty fingerprint
hash, empty project root and empty owner/repo. -/
theorem c5_resolve_gate_witness :
    truthyOptBool (none : Option Bool) = false
    ∧ fetchCachedBuild ⟨"", .ios, "", ⟨none, none, none⟩⟩ ⟨"", ""⟩ wNoManifest =
        (.ok none, wNoManifest) :=
  ⟨rfl, c5_resolve_gate ⟨"", .ios, "", ⟨none, none, none⟩⟩ ⟨"", ""⟩ wNoManifest rfl⟩

/-- C6: with the cache flag enabled, a readable manifest, no artifact at the
deterministic local cache path and no GITHUB_TOKEN in the environment,
resolve returns null without throwing, and its only effects are local
(manifest reads and the cache-path existence check) — no remote query is
issued. -/
theorem c6_resolve_missing_token (props : ResolveProps) (cfg : RepoConfig) (w : World)
    (pkg : PackageJson)
    (hflag : truthyOptBool props.runOptions.buildCache = true)
    (hm : w.manifests.lookup props.projectRoot = some pkg)
    (hmiss : w.fs.lookup (cachedAppPathPure props pkg) = none)
    (htok : getTokenTruthy w = none) :
    (fetchCachedBuild props cfg w).1 = .ok none
    ∧ (fetchCachedBuild props cfg w).2.trace =
        w.trace ++ [.fsReadManifest props.projectRoot,
          .fsExists (cachedAppPathPure props pkg), .fsReadManifest props.projectRoot]
    ∧ ∀ e, e ∈ [Eff.fsReadManifest props.projectRoot,
          Eff.fsExists (cachedAppPathPure props pkg),
          Eff.fsReadManifest props.projectRoot] → e.isNet = false := by
  have hrun : fetchCachedBuild props cfg w =
      (.ok none,
        ((w.log (.fsReadManifest props.projectRoot)).log
            (.fsExists (cachedAppPathPure props pkg))).log
          (.fsReadManifest props.projectRoot)) := by
    unfold fetchCachedBuild
    rw [getCachedAppPath_ok props w pkg hm]
    rw [hflag]
    simp only [if_true, fsExistsSync, log_fs, hmiss, ne_eq, not_true_eq_false, decide_False]
    unfold fetchCachedBuildTry
    rw [getTagName_ok props.fingerprintHash props.projectRoot props.runOptions props.platform
      _ pkg (by simpa using hm)]
    simp only [getTokenTruthy_log, htok]
  refine ⟨by rw [hrun], by rw [hrun]; simp [World.log, List.append_assoc], ?_⟩
  intro e he
  fin_cases he <;> rfl

/-- Witness for C6: the theorem applied in a concrete world with the flag
enabled, a readable manifest, an empty local cache and no token. -/
theorem c6_resolve_missing_token_witness :
    (fetchCachedBuild ⟨"/proj", .ios, "abc", ⟨some true, none, none⟩⟩ ⟨"o", "r"⟩
      wManifests).1 = .ok none :=
  (c6_resolve_missing_token ⟨"/proj", .ios, "abc", ⟨some true, none, none⟩⟩ ⟨"o", "r"⟩
    wManifests pkgWithDep rfl (by decide) rfl rfl).1

/-- Looking up a key in a list filtered to exclude that key yields nothing. -/
theorem lookup_filter_ne {α : Type} (l : List (String × α)) (p : String) :
    (l.filter (fun kv => kv.1 ≠ p)).lookup p = none := by
  simp
  exact fun a b _ hap hpa => hap hpa.symm

/-- The download catch clause rethrows the error and leaves no file at the
destination path. -/
theorem downloadCatch_spec (outputPath : String) (e : JsError) (w : World) :
    (downloadCatch outputPath e w).1 = .error e
    ∧ ((downloadCatch outputPath e w).2).fs.lookup outputPath = none := by
  unfold downloadCatch fsExistsSync
  rcases hll : w.fs.lookup outputPath with _ | entry
  · simp [hll]
  · simp [hll]
    exact fun a b _ hap hpa => hap hpa.symm

/-- The download catch clause only appends to the effect trace. -/
theorem downloadCatch_trace (outputPath : String) (e : JsError) (w : World) :
    ∃ t, (downloadCatch outputPath e w).2.trace = w.trace ++ t := by
  unfold downloadCatch fsExistsSync
  rcases hll : w.fs.lookup outputPath with _ | entry
  · simp [hll]
  · simp [hll]

/-- C8: whenever a download invocation fails — in particular after the
destination file has begun to be written — the (partially written)
destination file is deleted before the error is propagated, so no truncated
file remains at the path the local cache store later trusts. -/
theorem c8_failed_download_removes_file (url outputPath : String) (w : World) (e : JsError)
    (w' : World) (h : downloadFileAsync url outputPath w = (.error e, w')) :
    w'.fs.lookup outputPath = none := by
  unfold downloadFileAsync at h
  simp only [log_responses] at h
  rcases hr : w.responses url with e0 | resp
  · simp only [hr] at h
    have h2 := congrArg Prod.snd h
    simp only at h2
    rw [← h2]
    exact (downloadCatch_spec _ _ _).2
  · simp only [hr] at h
    by_cases hok : (!resp.ok || !resp.hasBody) = true
    · rw [if_pos hok] at h
      have h2 := congrArg Prod.snd h
      simp only at h2
      rw [← h2]
      exact (downloadCatch_spec _ _ _).2
    · rw [if_neg hok] at h
      rcases hs : resp.stream with n | ⟨p, e1⟩
      · simp only [hs] at h
        exact absurd (congrArg Prod.fst h) (by simp)
      · simp only [hs] at h
        have h2 := congrArg Prod.snd h
        simp only at h2
        rw [← h2]
        exact (downloadCatch_spec _ _ _).2

/-- A response whose body stream fails after 5 bytes were written. -/
def respStreamFail : FetchResponse :=
  ⟨true, 200, "OK", true, 100, .failure 5 ⟨0, "socket hang up"⟩⟩

/-- A world whose network delivers only the stream-failing response. -/
def wStreamFail : World := { responses := fun _ => .ok respStreamFail }

/-- Witness for C8: a concrete mid-stream failure leaves no file behind. -/
theorem c8_failed_download_removes_file_witness :
    ((downloadFileAsync "https://x.test/a" "/out/file.apk" wStreamFail).2).fs.lookup
      "/out/file.apk" = none :=
  c8_failed_download_removes_file "https://x.test/a" "/out/file.apk" wStreamFail
    ⟨0, "socket hang up"⟩ _ rfl

/-- C9: every download performs its fetch with exactly the computed headers;
with a token present those headers carry an Authorization value in the
`token` scheme for the api.github.com host and in the `Bearer` scheme for
every other destination, and with no token present they carry no
Authorization header. -/
theorem c9_download_auth_headers (url outputPath : String) (w : World) :
    (∃ rest, (downloadFileAsync url outputPath w).2.trace =
        w.trace ++ .netFetch url (downloadHeaders (getTokenTruthy w) url) :: rest)
    ∧ (∀ t, getTokenTruthy w = some t →
        (downloadHeaders (getTokenTruthy w) url).lookup "Authorization" =
          some ((if hostnameOf url = some "api.github.com" then "token " else "Bearer ") ++ t))
    ∧ (getTokenTruthy w = none →
        (downloadHeaders (getTokenTruthy w) url).lookup "Authorization" = none) := by
  refine ⟨?_, ?_, ?_⟩
  · unfold downloadFileAsync
    simp only [log_responses]
    rcases hr : w.responses url with e0 | resp
    · obtain ⟨t, ht⟩ := downloadCatch_trace outputPath e0
        (w.log (.netFetch url (downloadHeaders (getTokenTruthy w) url)))
      simp only [hr]
      exact ⟨t, by simp [ht]⟩
    · simp only [hr]
      by_cases hok : (!resp.ok || !resp.hasBody) = true
      · rw [if_pos hok]
        obtain ⟨t, ht⟩ := downloadCatch_trace outputPath
          ⟨0, "Failed to download file from " ++ url ++ ", because " ++
            toString resp.status ++ " " ++ resp.statusText⟩
          (w.log (.netFetch url (downloadHeaders (getTokenTruthy w) url)))
        exact ⟨t, by simp [ht]⟩
      · rw [if_neg hok]
        rcases hs : resp.stream with n | ⟨p, e1⟩
        · exact ⟨[.fsWrite outputPath], by simp⟩
        · obtain ⟨t, ht⟩ := downloadCatch_trace outputPath e1
            (((w.log (.netFetch url (downloadHeaders (getTokenTruthy w) url))).fsSet outputPath
              (.file p)).log (.fsWrite outputPath))
          refine ⟨.fsWrite outputPath :: t, ?_⟩
          simp only [ht]
          simp [World.fsSet, World.log]
  · intro t htok
    rw [htok]
    rcases hh : hostnameOf url with _ | hname
    · simp [downloadHeaders, hh, List.lookup]
    · by_cases hgh : hname = "api.github.com"
      · simp [downloadHeaders, hh, hgh, List.lookup]
      · simp [downloadHeaders, hh, hgh, List.lookup]
  · intro htok
    rw [htok]
    simp [downloadHeaders, List.lookup]

/-- A world whose environment holds a GitHub token. -/
def wTok : World := { env := [("GITHUB_TOKEN", "tok")] }

/-- Witness for C9: the header conjuncts applied at concrete URLs, with and
without a token. -/
theorem c9_download_auth_headers_witness :
    (downloadHeaders (getTokenTruthy wTok)
        "https://api.github.com/repos/o/r/releases/assets/1").lookup "Authorization" =
      some ("token " ++ "tok")
    ∧ (downloadHeaders (getTokenTruthy wTok)
        "https://objects.example.com/blob/1").lookup "Authorization" =
      some ("Bearer " ++ "tok")
    ∧ (downloadHeaders (getTokenTruthy wNoManifest)
        "https://api.github.com/repos/o/r/releases/assets/1").lookup "Authorization" = none := by
  refine ⟨?_, ?_, ?_⟩
  · have h := (c9_download_auth_headers "https://api.github.com/repos/o/r/releases/assets/1"
      "/out" wTok).2.1 "tok" rfl
    rw [show hostnameOf "https://api.github.com/repos/o/r/releases/assets/1" =
      some "api.github.com" from rfl] at h
    simpa using h
  · have h := (c9_download_auth_headers "https://objects.example.com/blob/1"
      "/out" wTok).2.1 "tok" rfl
    rw [show hostnameOf "https://objects.example.com/blob/1" =
      some "objects.example.com" from rfl] at h
    simpa using h
  · exact (c9_download_auth_headers "https://api.github.com/repos/o/r/releases/assets/1"
      "/out" wNoManifest).2.2 rfl

/-- The tag computation always returns the same world: the input world with
one manifest read logged (in the success and in the failure case alike). -/
theorem getTagName_world (fingerprintHash pr : String) (ro : RunOptions) (platform : Platform)
    (w : World) :
    (getTagName fingerprintHash pr ro platform w).2 = w.log (.fsReadManifest pr) := by
  rcases hm : w.manifests.lookup pr with _ | pkg
  · simp [getTagName, isDevClientBuild, detectDevClientDependency, getPackageJson, hm]
  · simp [getTagName_ok fingerprintHash pr ro platform w pkg hm]

/-- C10: the upload operation never consults the cache-enable flag: its
result is identical for every value of runOptions.buildCache, and with a
credential present it proceeds through tag computation into the full
release-and-upload sequence even when the flag is false or absent. -/
theorem c10_publish_ignores_cache_flag (props : UploadProps) (cfg : RepoConfig) (w : World) :
    (∀ b : Option Bool,
      publishBuildCache
        { props with runOptions := { props.runOptions with buildCache := b } } cfg w =
      publishBuildCache props cfg w)
    ∧ (∀ tok tagName w₁,
        getTagName props.fingerprintHash props.projectRoot props.runOptions props.platform w =
          (.ok tagName, w₁) →
        getTokenTruthy w = some tok →
        publishBuildCache props cfg w =
          (match createReleaseAndUploadAsset
              ⟨tok, cfg.owner, cfg.repo, tagName, props.buildPath⟩ w₁ with
           | (.ok result, w₂) => (.ok (some result), w₂)
           | (.error _, w₂) => (.ok none, w₂))) := by
  constructor
  · intro b
    simp [publishBuildCache, publishBuildCacheTry, getTagName, isDevClientBuild]
  · intro tok tagName w₁ h1 htok
    have hw₁ : w₁ = w.log (.fsReadManifest props.projectRoot) := by
      have := getTagName_world props.fingerprintHash props.projectRoot props.runOptions
        props.platform w
      rw [h1] at this
      exact this
    have htok₁ : getTokenTruthy w₁ = some tok := by rw [hw₁, getTokenTruthy_log, htok]
    unfold publishBuildCache publishBuildCacheTry
    rw [h1]
    simp only [htok₁]
    rcases hc : createReleaseAndUploadAsset ⟨tok, cfg.owner, cfg.repo, tagName, props.buildPath⟩ w₁
      with ⟨e | r, w₂⟩ <;> simp [hc]

/-- A world ready for a successful upload: token present, readable manifest,
a file at the build path, and a `main` branch in the remote store. -/
def wPub : World :=
  { env := [("GITHUB_TOKEN", "tok")]
    manifests := [("/proj", pkgNoDep)]
    fs := [("/b/app.apk", .file 3)]
    gh := { branches := [("main", "csha")] } }

/-- Witness for C10: flipping the flag leaves the concrete upload unchanged,
and with the flag set to false the upload still runs the full sequence and
returns the uploaded asset URL. -/
theorem c10_publish_ignores_cache_flag_witness :
    publishBuildCache ⟨"/proj", "abc", ⟨some false, none, none⟩, "/b/app.apk", .ios⟩
        ⟨"o", "r"⟩ wPub =
      publishBuildCache ⟨"/proj", "abc", ⟨none, none, none⟩, "/b/app.apk", .ios⟩
        ⟨"o", "r"⟩ wPub
    ∧ (publishBuildCache ⟨"/proj", "abc", ⟨some false, none, none⟩, "/b/app.apk", .ios⟩
        ⟨"o", "r"⟩ wPub).1 =
      .ok (some (browserDownloadUrl "o" "r" 0 "app.apk")) := by
  constructor
  · exact (c10_publish_ignores_cache_flag
      ⟨"/proj", "abc", ⟨none, none, none⟩, "/b/app.apk", .ios⟩ ⟨"o", "r"⟩ wPub).1 (some false)
  · rw [(c10_publish_ignores_cache_flag
      ⟨"/proj", "abc", ⟨some false, none, none⟩, "/b/app.apk", .ios⟩ ⟨"o", "r"⟩ wPub).2 "tok"
      "fingerprint.abc.ios" (wPub.log (.fsReadManifest "/proj")) rfl rfl]
    rfl

/-- A pair whose first component is a thrown error equals the pair of that
error and its own second component. -/
theorem fst_error_eq {α : Type} (x : Except JsError α × World) (e : JsError)
    (hx : x.1 = .error e) : x = (.error e, x.2) := by
  rcases x with ⟨r, w'⟩
  simp only at hx
  rw [hx]

/-- The tag a resolve call computes, given the project manifest. -/
def tagFor (props : ResolveProps) (pkg : PackageJson) : String :=
  encodeTag props.fingerprintHash (devClientDecision pkg props.runOptions) props.platform

/-- With the flag on, a readable manifest and a local miss, resolve reduces to
its guarded try body wrapped in the error-to-null catch. -/
theorem fetchCachedBuild_miss_eq (props : ResolveProps) (cfg : RepoConfig) (w : World)
    (pkg : PackageJson)
    (hflag : truthyOptBool props.runOptions.buildCache = true)
    (hm : w.manifests.lookup props.projectRoot = some pkg)
    (hmiss : w.fs.lookup (cachedAppPathPure props pkg) = none) :
    fetchCachedBuild props cfg w =
      (match fetchCachedBuildTry props cfg (cachedAppPathPure props pkg)
          ((w.log (.fsReadManifest props.projectRoot)).log
            (.fsExists (cachedAppPathPure props pkg))) with
       | (.ok r, w') => (.ok r, w')
       | (.error _, w') => (.ok none, w')) := by
  unfold fetchCachedBuild
  rw [getCachedAppPath_ok props w pkg hm, hflag]
  simp only [if_true, fsExistsSync, log_fs, hmiss, ne_eq, not_true_eq_false, decide_False]

/-- A rejected fetch propagates through the download catch clause. -/
theorem downloadFileAsync_fetch_error_eq (url p : String) (w : World) (eD : JsError)
    (hresp : w.responses url = .error eD) :
    downloadFileAsync url p w =
      (.error eD,
        (downloadCatch p eD (w.log (.netFetch url (downloadHeaders (getTokenTruthy w) url)))).2) := by
  unfold downloadFileAsync
  simp only [log_responses, hresp]
  exact fst_error_eq _ _ (downloadCatch_spec p eD _).1

/-- A rejected fetch makes the whole download-and-extract pipeline rethrow,
on both platforms. -/
theorem downloadAndMaybeExtract_fetch_error (url : String) (platform : Platform)
    (cpath : Option String) (w : World) (eD : JsError)
    (hresp : w.responses url = .error eD) :
    (downloadAndMaybeExtractAppAsync url platform cpath w).1 = .error eD := by
  unfold downloadAndMaybeExtractAppAsync
  cases platform
  all_goals {
    simp only [World.freshUuid, fsMkdir, World.fsSet, World.log]
    rw [downloadFileAsync_fetch_error_eq]
    exact hresp
  }

/-- Equation form of the previous lemma. -/
theorem downloadAndMaybeExtract_fetch_error_eq (url : String) (platform : Platform)
    (cpath : Option String) (w : World) (eD : JsError)
    (hresp : w.responses url = .error eD) :
    downloadAndMaybeExtractAppAsync url platform cpath w =
      (.error eD, (downloadAndMaybeExtractAppAsync url platform cpath w).2) :=
  fst_error_eq _ _ (downloadAndMaybeExtract_fetch_error url platform cpath w eD hresp)

/-- A successful streaming download writes the file at the destination. -/
theorem downloadFileAsync_ok (url p : String) (w : World) (st cl n : Nat) (sx : String)
    (hresp : w.responses url = .ok ⟨true, st, sx, true, cl, .success n⟩) :
    downloadFileAsync url p w =
      (.ok (), ((w.log (.netFetch url (downloadHeaders (getTokenTruthy w) url))).fsSet p
        (.file n)).log (.fsWrite p)) := by
  unfold downloadFileAsync
  simp only [log_responses, hresp]
  simp

/-- When the native tar and the JS tar module both fail, extraction rethrows
the JS failure (the native failure only triggers the fallback). -/
theorem tarExtractAsync_fails (i o : String) (w : World) (eN eJ : JsError)
    (hN : w.nativeTar i o = .error eN) (hJ : w.jsTarResult i o = .error eJ) :
    (tarExtractAsync i o w).1 = .error eJ := by
  unfold tarExtractAsync tarExtractJs
  by_cases hp : w.osPlatform ≠ "win32"
  · rw [if_pos hp]
    simp [hN, hJ]
  · rw [if_neg hp]
    simp [hJ]

/-- Equation form of the previous lemma. -/
theorem tarExtractAsync_fails_eq (i o : String) (w : World) (eN eJ : JsError)
    (hN : w.nativeTar i o = .error eN) (hJ : w.jsTarResult i o = .error eJ) :
    tarExtractAsync i o w = (.error eJ, (tarExtractAsync i o w).2) :=
  fst_error_eq _ _ (tarExtractAsync_fails i o w eN eJ hN hJ)

/-- On iOS, a successful download followed by a failing extraction makes the
pipeline rethrow the extraction failure. -/
theorem downloadAndMaybeExtract_extract_fails (url : String) (cpath : Option String)
    (w : World) (st cl n : Nat) (sx : String) (eN eJ : JsError)
    (hresp : w.responses url = .ok ⟨true, st, sx, true, cl, .success n⟩)
    (hN : ∀ i o, w.nativeTar i o = .error eN)
    (hJ : ∀ i o, w.jsTarResult i o = .error eJ) :
    (downloadAndMaybeExtractAppAsync url .ios cpath w).1 = .error eJ := by
  unfold downloadAndMaybeExtractAppAsync
  simp only [World.freshUuid, fsMkdir, World.fsSet, World.log]
  rw [downloadFileAsync_ok]
  case hresp => exact hresp
  simp only []
  rw [tarExtractAsync_fails_eq]
  case hN => exact hN _ _
  case hJ => exact hJ _ _

/-- Equation form of the previous lemma. -/
theorem downloadAndMaybeExtract_extract_fails_eq (url : String) (cpath : Option String)
    (w : World) (st cl n : Nat) (sx : String) (eN eJ : JsError)
    (hresp : w.responses url = .ok ⟨true, st, sx, true, cl, .success n⟩)
    (hN : ∀ i o, w.nativeTar i o = .error eN)
    (hJ : ∀ i o, w.jsTarResult i o = .error eJ) :
    downloadAndMaybeExtractAppAsync url .ios cpath w =
      (.error eJ, (downloadAndMaybeExtractAppAsync url .ios cpath w).2) :=
  fst_error_eq _ _
    (downloadAndMaybeExtract_extract_fails url cpath w st cl n sx eN eJ hresp hN hJ)

/-- The upload operation never returns a thrown error. -/
theorem publishBuildCache_no_throw (props : UploadProps) (cfg : RepoConfig) (w : World) :
    ∃ r w', publishBuildCache props cfg w = (.ok r, w') := by
  unfold publishBuildCache
  rcases ht : publishBuildCacheTry props cfg w with ⟨e | r, w'⟩
  · exact ⟨none, w', rfl⟩
  · exact ⟨r, w', rfl⟩

/-- The resolve operation never returns a thrown error when the manifest of
the project is readable. -/
theorem fetchCachedBuild_no_throw (props : ResolveProps) (cfg : RepoConfig) (w : World)
    (pkg : PackageJson) (hm : w.manifests.lookup props.projectRoot = some pkg) :
    ∃ r w', fetchCachedBuild props cfg w = (.ok r, w') := by
  unfold fetchCachedBuild
  by_cases hflag : truthyOptBool props.runOptions.buildCache = true
  · rw [getCachedAppPath_ok props w pkg hm, hflag]
    simp only [if_true]
    rcases hl : w.fs.lookup (cachedAppPathPure props pkg) with _ | entry
    · simp only [fsExistsSync, log_fs, hl, ne_eq, not_true_eq_false, decide_False]
      rcases ht : fetchCachedBuildTry props cfg (cachedAppPathPure props pkg)
          ((w.log (.fsReadManifest props.projectRoot)).log
            (.fsExists (cachedAppPathPure props pkg))) with ⟨e | r, w'⟩
      · exact ⟨none, w', rfl⟩
      · exact ⟨r, w', rfl⟩
    · simp only [fsExistsSync, log_fs, hl]
      refine ⟨some (cachedAppPathPure props pkg),
        (w.log (.fsReadManifest props.projectRoot)).log
          (.fsExists (cachedAppPathPure props pkg)), ?_⟩
      simp
  · simp only [Bool.not_eq_true] at hflag
    rw [hflag]
    exact ⟨none, w, rfl⟩

/-- No release for the tag resolves to null. -/
theorem resolve_null_no_release (props : ResolveProps) (cfg : RepoConfig) (w : World)
    (pkg : PackageJson) (t : String)
    (hflag : truthyOptBool props.runOptions.buildCache = true)
    (hm : w.manifests.lookup props.projectRoot = some pkg)
    (hmiss : w.fs.lookup (cachedAppPathPure props pkg) = none)
    (htok : getTokenTruthy w = some t)
    (hrel : findReleaseByTag w.gh.releases (tagFor props pkg) = none) :
    (fetchCachedBuild props cfg w).1 = .ok none := by
  rw [fetchCachedBuild_miss_eq props cfg w pkg hflag hm hmiss]
  unfold fetchCachedBuildTry
  rw [getTagName_ok props.fingerprintHash props.projectRoot props.runOptions props.platform
    _ pkg (by simpa using hm)]
  simp only [getTokenTruthy_log, htok]
  unfold fetchReleaseAssetsByTag ghGetReleaseByTag
  rw [show tagFor props pkg = encodeTag props.fingerprintHash
    (devClientDecision pkg props.runOptions) props.platform from rfl] at hrel
  simp only [log_gh, hrel]
  simp

/-- A release with zero assets resolves to null. -/
theorem resolve_null_zero_assets (props : ResolveProps) (cfg : RepoConfig) (w : World)
    (pkg : PackageJson) (t : String) (rel : Release)
    (hflag : truthyOptBool props.runOptions.buildCache = true)
    (hm : w.manifests.lookup props.projectRoot = some pkg)
    (hmiss : w.fs.lookup (cachedAppPathPure props pkg) = none)
    (htok : getTokenTruthy w = some t)
    (hrel : findReleaseByTag w.gh.releases (tagFor props pkg) = some rel)
    (hassets : w.gh.releaseAssets.filter (fun a => a.1 = rel.id) = []) :
    (fetchCachedBuild props cfg w).1 = .ok none := by
  rw [fetchCachedBuild_miss_eq props cfg w pkg hflag hm hmiss]
  unfold fetchCachedBuildTry
  rw [getTagName_ok props.fingerprintHash props.projectRoot props.runOptions props.platform
    _ pkg (by simpa using hm)]
  simp only [getTokenTruthy_log, htok]
  unfold fetchReleaseAssetsByTag ghGetReleaseByTag
  rw [show tagFor props pkg = encodeTag props.fingerprintHash
    (devClientDecision pkg props.runOptions) props.platform from rfl] at hrel
  simp only [log_gh, hrel, hassets, List.map_nil]

/-- A first asset without a truthy download URL resolves to null. -/
theorem resolve_null_missing_url (props : ResolveProps) (cfg : RepoConfig) (w : World)
    (pkg : PackageJson) (t : String) (rel : Release) (rid : Nat) (ast : Asset)
    (rest : List (Nat × Asset))
    (hflag : truthyOptBool props.runOptions.buildCache = true)
    (hm : w.manifests.lookup props.projectRoot = some pkg)
    (hmiss : w.fs.lookup (cachedAppPathPure props pkg) = none)
    (htok : getTokenTruthy w = some t)
    (hrel : findReleaseByTag w.gh.releases (tagFor props pkg) = some rel)
    (hassets : w.gh.releaseAssets.filter (fun a => a.1 = rel.id) = (rid, ast) :: rest)
    (hurl : truthyOptStr ast.url = none) :
    (fetchCachedBuild props cfg w).1 = .ok none := by
  rw [fetchCachedBuild_miss_eq props cfg w pkg hflag hm hmiss]
  unfold fetchCachedBuildTry
  rw [getTagName_ok props.fingerprintHash props.projectRoot props.runOptions props.platform
    _ pkg (by simpa using hm)]
  simp only [getTokenTruthy_log, htok]
  unfold fetchReleaseAssetsByTag ghGetReleaseByTag
  rw [show tagFor props pkg = encodeTag props.fingerprintHash
    (devClientDecision pkg props.runOptions) props.platform from rfl] at hrel
  simp only [log_gh, hrel, hassets, List.map_cons, hurl]

/-- A failing download (the fetch rejects) resolves to null. -/
theorem resolve_null_download_failure (props : ResolveProps) (cfg : RepoConfig) (w : World)
    (pkg : PackageJson) (t u : String) (rel : Release) (rid : Nat) (ast : Asset)
    (rest : List (Nat × Asset)) (eD : JsError)
    (hflag : truthyOptBool props.runOptions.buildCache = true)
    (hm : w.manifests.lookup props.projectRoot = some pkg)
    (hmiss : w.fs.lookup (cachedAppPathPure props pkg) = none)
    (htok : getTokenTruthy w = some t)
    (hrel : findReleaseByTag w.gh.releases (tagFor props pkg) = some rel)
    (hassets : w.gh.releaseAssets.filter (fun a => a.1 = rel.id) = (rid, ast) :: rest)
    (hurl : truthyOptStr ast.url = some u)
    (hresp : w.responses u = .error eD) :
    (fetchCachedBuild props cfg w).1 = .ok none := by
  rw [fetchCachedBuild_miss_eq props cfg w pkg hflag hm hmiss]
  unfold fetchCachedBuildTry
  rw [getTagName_ok props.fingerprintHash props.projectRoot props.runOptions props.platform
    _ pkg (by simpa using hm)]
  simp only [getTokenTruthy_log, htok]
  unfold fetchReleaseAssetsByTag ghGetReleaseByTag
  rw [show tagFor props pkg = encodeTag props.fingerprintHash
    (devClientDecision pkg props.runOptions) props.platform from rfl] at hrel
  simp only [log_gh, hrel, hassets, List.map_cons, hurl]
  rw [downloadAndMaybeExtract_fetch_error_eq]
  exact eD
  exact hresp

/-- A failing extraction (after a successful iOS download) resolves to null. -/
theorem resolve_null_extract_failure (props : ResolveProps) (cfg : RepoConfig) (w : World)
    (pkg : PackageJson) (t u : String) (rel : Release) (rid : Nat) (ast : Asset)
    (rest : List (Nat × Asset)) (st cl n : Nat) (sx : String) (eN eJ : JsError)
    (hplat : props.platform = .ios)
    (hflag : truthyOptBool props.runOptions.buildCache = true)
    (hm : w.manifests.lookup props.projectRoot = some pkg)
    (hmiss : w.fs.lookup (cachedAppPathPure props pkg) = none)
    (htok : getTokenTruthy w = some t)
    (hrel : findReleaseByTag w.gh.releases (tagFor props pkg) = some rel)
    (hassets : w.gh.releaseAssets.filter (fun a => a.1 = rel.id) = (rid, ast) :: rest)
    (hurl : truthyOptStr ast.url = some u)
    (hresp : w.responses u = .ok ⟨true, st, sx, true, cl, .success n⟩)
    (hN : ∀ i o, w.nativeTar i o = .error eN)
    (hJ : ∀ i o, w.jsTarResult i o = .error eJ) :
    (fetchCachedBuild props cfg w).1 = .ok none := by
  rw [fetchCachedBuild_miss_eq props cfg w pkg hflag hm hmiss]
  unfold fetchCachedBuildTry
  rw [getTagName_ok props.fingerprintHash props.projectRoot props.runOptions props.platform
    _ pkg (by simpa using hm)]
  simp only [getTokenTruthy_log, htok]
  unfold fetchReleaseAssetsByTag ghGetReleaseByTag
  rw [show tagFor props pkg = encodeTag props.fingerprintHash
    (devClientDecision pkg props.runOptions) props.platform from rfl] at hrel
  simp only [log_gh, hrel, hassets, List.map_cons, hurl]
  rw [hplat]
  rw [downloadAndMaybeExtract_extract_fails_eq]
  case hresp => exact hresp
  case hN => exact hN
  case hJ => exact hJ

/-- C1 counterexample: a resolve call with the cache flag enabled on a
project whose manifest is missing propagates a thrown error to the caller
(the cache-path computation runs before the try block), refuting the claim
that neither operation ever propagates. -/
theorem c1_resolve_propagates_counterexample :
    (fetchCachedBuild ⟨"/gone", .ios, "abc", ⟨some true, none, none⟩⟩ ⟨"o", "r"⟩
      wManifests).1 =
      .error ⟨0, "The expected package.json path: /gone/package.json does not exist"⟩ := rfl

/-- C1 amended: every listed failure or cache-miss condition inside the
guarded regions is caught and converted to a null return — no release for the
tag, zero assets, a missing download URL on the first asset, a download
failure, an extraction failure, and a failure at any stage of the upload
sequence — and the upload operation never propagates a thrown error; the
resolve operation never propagates one either, provided its initial
cache-path computation (the dev-client manifest read, performed before the
try block) succeeds, while a manifest-reader failure there does propagate. -/
theorem c1_failures_convert_to_null_amended :
    (∀ (props : UploadProps) (cfg : RepoConfig) (w : World),
      ∃ r w', publishBuildCache props cfg w = (.ok r, w'))
    ∧ (∀ (props : ResolveProps) (cfg : RepoConfig) (w : World) (pkg : PackageJson),
        w.manifests.lookup props.projectRoot = some pkg →
        ∃ r w', fetchCachedBuild props cfg w = (.ok r, w'))
    ∧ (∀ (props : UploadProps) (cfg : RepoConfig) (w : World) (e : JsError) (w' : World),
        publishBuildCacheTry props cfg w = (.error e, w') →
        publishBuildCache props cfg w = (.ok none, w'))
    ∧ (∀ (props : ResolveProps) (cfg : RepoConfig) (w : World) (pkg : PackageJson) (t : String),
        truthyOptBool props.runOptions.buildCache = true →
        w.manifests.lookup props.projectRoot = some pkg →
        w.fs.lookup (cachedAppPathPure props pkg) = none →
        getTokenTruthy w = some t →
        findReleaseByTag w.gh.releases (tagFor props pkg) = none →
        (fetchCachedBuild props cfg w).1 = .ok none)
    ∧ (∀ (props : ResolveProps) (cfg : RepoConfig) (w : World) (pkg : PackageJson)
        (t : String) (rel : Release),
        truthyOptBool props.runOptions.buildCache = true →
        w.manifests.lookup props.projectRoot = some pkg →
        w.fs.lookup (cachedAppPathPure props pkg) = none →
        getTokenTruthy w = some t →
        findReleaseByTag w.gh.releases (tagFor props pkg) = some rel →
        w.gh.releaseAssets.filter (fun a => a.1 = rel.id) = [] →
        (fetchCachedBuild props cfg w).1 = .ok none)
    ∧ (∀ (props : ResolveProps) (cfg : RepoConfig) (w : World) (pkg : PackageJson)
        (t : String) (rel : Release) (rid : Nat) (ast : Asset) (rest : List (Nat × Asset)),
        truthyOptBool props.runOptions.buildCache = true →
        w.manifests.lookup props.projectRoot = some pkg →
        w.fs.lookup (cachedAppPathPure props pkg) = none →
        getTokenTruthy w = some t →
        findReleaseByTag w.gh.releases (tagFor props pkg) = some rel →
        w.gh.releaseAssets.filter (fun a => a.1 = rel.id) = (rid, ast) :: rest →
        truthyOptStr ast.url = none →
        (fetchCachedBuild props cfg w).1 = .ok none)
    ∧ (∀ (props : ResolveProps) (cfg : RepoConfig) (w : World) (pkg : PackageJson)
        (t u : String) (rel : Release) (rid : Nat) (ast : Asset) (rest : List (Nat × Asset))
        (eD : JsError),
        truthyOptBool props.runOptions.buildCache = true →
        w.manifests.lookup props.projectRoot = some pkg →
        w.fs.lookup (cachedAppPathPure props pkg) = none →
        getTokenTruthy w = some t →
        findReleaseByTag w.gh.releases (tagFor props pkg) = some rel →
        w.gh.releaseAssets.filter (fun a => a.1 = rel.id) = (rid, ast) :: rest →
        truthyOptStr ast.url = some u →
        w.responses u = .error eD →
        (fetchCachedBuild props cfg w).1 = .ok none)
    ∧ (∀ (props : ResolveProps) (cfg : RepoConfig) (w : World) (pkg : PackageJson)
        (t u : String) (rel : Release) (rid : Nat) (ast : Asset) (rest : List (Nat × Asset))
        (st cl n : Nat) (sx : String) (eN eJ : JsError),
        props.platform = .ios →
        truthyOptBool props.runOptions.buildCache = true →
        w.manifests.lookup props.projectRoot = some pkg →
        w.fs.lookup (cachedAppPathPure props pkg) = none →
        getTokenTruthy w = some t →
        findReleaseByTag w.gh.releases (tagFor props pkg) = some rel →
        w.gh.releaseAssets.filter (fun a => a.1 = rel.id) = (rid, ast) :: rest →
        truthyOptStr ast.url = some u →
        w.responses u = .ok ⟨true, st, sx, true, cl, .success n⟩ →
        (∀ i o, w.nativeTar i o = .error eN) →
        (∀ i o, w.jsTarResult i o = .error eJ) →
        (fetchCachedBuild props cfg w).1 = .ok none) := by
  refine ⟨publishBuildCache_no_throw, fetchCachedBuild_no_throw, ?_, ?_, ?_, ?_, ?_, ?_⟩
  · intro props cfg w e w' ht
    unfold publishBuildCache
    rw [ht]
  · exact resolve_null_no_release
  · exact resolve_null_zero_assets
  · exact resolve_null_missing_url
  · exact resolve_null_download_failure
  · exact resolve_null_extract_failure

/-- A world ready for a resolve that finds no release: flag-on manifest
readable, empty local cache, token present, empty remote store. -/
def wResolve : World :=
  { env := [("GITHUB_TOKEN", "tok")], manifests := [("/proj", pkgNoDep)] }

/-- Witness for C1 amended: the no-release conjunct and the upload
no-throw conjunct applied at concrete worlds. -/
theorem c1_failures_convert_to_null_amended_witness :
    (fetchCachedBuild ⟨"/proj", .android, "abc", ⟨some true, none, none⟩⟩ ⟨"o", "r"⟩
      wResolve).1 = .ok none
    ∧ ∃ r w', publishBuildCache ⟨"/gone", "abc", ⟨some true, none, none⟩, "/b/a.apk", .ios⟩
        ⟨"o", "r"⟩ wNoManifest = (.ok r, w') :=
  ⟨c1_failures_convert_to_null_amended.2.2.2.1
      ⟨"/proj", .android, "abc", ⟨some true, none, none⟩⟩ ⟨"o", "r"⟩ wResolve pkgNoDep
      "tok" rfl rfl rfl rfl rfl,
    c1_failures_convert_to_null_amended.1
      ⟨"/gone", "abc", ⟨some true, none, none⟩, "/b/a.apk", .ios⟩ ⟨"o", "r"⟩ wNoManifest⟩

/-- The octokit ref addressing: reading `tags/x` resolves `refs/tags/x`. -/
theorem refs_tags_append (tag : String) : "refs/" ++ ("tags/" ++ tag) = "refs/tags/" ++ tag := by
  apply string_data_ext
  simp only [String.data_append]
  rw [← List.append_assoc]
  rfl

/-- With the tag reference present, the registry reuses the existing tag
object SHA and performs only the reference read. -/
theorem createOrRetrieveGitTag_reuse (p : CreateTagParams) (w : World) (sha : String)
    (hfault : w.refFault = none)
    (href : w.gh.tagRefs.lookup ("refs/tags/" ++ p.tag) = some sha) :
    createOrRetrieveGitTag p w =
      (.ok (sha, true), w.log (.netGetRef p.owner p.repo ("tags/" ++ p.tag))) := by
  unfold createOrRetrieveGitTag ghGetRef
  simp only [log_refFault, hfault, log_gh, refs_tags_append, href]

/-- A non-404 failure of the reference read is rethrown and nothing is
created. -/
theorem createOrRetrieveGitTag_fault (p : CreateTagParams) (w : World) (e : JsError)
    (hfault : w.refFault = some e) (hstat : e.status ≠ 404) :
    createOrRetrieveGitTag p w =
      (.error e, w.log (.netGetRef p.owner p.repo ("tags/" ++ p.tag))) := by
  unfold createOrRetrieveGitTag ghGetRef
  simp only [log_refFault, hfault]
  rw [if_pos hstat]

/-- A 404 on the reference read makes the registry create the annotated tag
object and its reference. -/
theorem createOrRetrieveGitTag_create_new (p : CreateTagParams) (w : World)
    (hfault : w.refFault = none)
    (href : w.gh.tagRefs.lookup ("refs/tags/" ++ p.tag) = none) :
    ∃ w', createOrRetrieveGitTag p w =
        (.ok ("tagsha-" ++ toString w.gh.nextTagSha, false), w')
      ∧ w'.gh.tagRefs =
          ("refs/tags/" ++ p.tag, "tagsha-" ++ toString w.gh.nextTagSha) :: w.gh.tagRefs
      ∧ w'.gh.tagObjects =
          ("tagsha-" ++ toString w.gh.nextTagSha, p.object) :: w.gh.tagObjects
      ∧ w'.gh.releases = w.gh.releases := by
  unfold createOrRetrieveGitTag ghGetRef ghCreateTag ghCreateRef
  simp only [log_refFault, hfault, log_gh, refs_tags_append, href, ne_eq, not_true_eq_false,
    if_false, decide_True, decide_False, Bool.false_eq_true, if_true]
  refine ⟨_, rfl, ?_, ?_, ?_⟩ <;> simp

/-- Full upload sequence against an existing tag and release: the existing
release is reused, nothing is created, the asset is still uploaded. -/
theorem createReleaseAndUploadAsset_reuse (cfg : ReleasePublishConfig) (w : World)
    (c sha : String) (rel : Release) (n : Nat)
    (hbr : w.gh.branches.lookup "main" = some c)
    (hfault : w.refFault = none)
    (href : w.gh.tagRefs.lookup ("refs/tags/" ++ cfg.tagName) = some sha)
    (hrel : findReleaseByTag w.gh.releases cfg.tagName = some rel)
    (hfile : w.fs.lookup cfg.binaryPath = some (.file n)) :
    ∃ w', createReleaseAndUploadAsset cfg w =
        (.ok (browserDownloadUrl cfg.owner cfg.repo rel.id (basename cfg.binaryPath)), w')
      ∧ w'.gh.tagRefs = w.gh.tagRefs
      ∧ w'.gh.tagObjects = w.gh.tagObjects
      ∧ w'.gh.releases = w.gh.releases
      ∧ w'.gh.releaseAssets = w.gh.releaseAssets ++
          [(rel.id, uploadedAsset cfg.owner cfg.repo rel.id (basename cfg.binaryPath) n)] := by
  unfold createReleaseAndUploadAsset createReleaseAndUploadAssetTry
  unfold findDefaultBranchCommit findDefaultBranchCommitLoop ghGetBranch defaultBranchCandidates
  simp only [log_gh, hbr]
  rw [createOrRetrieveGitTag_reuse]
  case hfault => exact hfault
  case href => exact href
  simp only [if_true]
  unfold ghGetReleaseByTag
  simp only [log_gh, hrel]
  unfold uploadReleaseAsset fsStat
  simp only [log_fs, hfile]
  unfold uploadReleaseAssetData fsReadFile ghUploadReleaseAsset
  simp only [log_fs, hfile]
  refine ⟨_, rfl, ?_, ?_, ?_, ?_⟩ <;> simp

/-- Full upload sequence against a store without the tag: the annotated tag,
its reference and a new prerelease are created and the asset uploaded. -/
theorem createReleaseAndUploadAsset_create (cfg : ReleasePublishConfig) (w : World)
    (c : String) (n : Nat)
    (hbr : w.gh.branches.lookup "main" = some c)
    (hfault : w.refFault = none)
    (href : w.gh.tagRefs.lookup ("refs/tags/" ++ cfg.tagName) = none)
    (hfile : w.fs.lookup cfg.binaryPath = some (.file n)) :
    ∃ w', createReleaseAndUploadAsset cfg w =
        (.ok (browserDownloadUrl cfg.owner cfg.repo w.gh.nextReleaseId (basename cfg.binaryPath)),
          w')
      ∧ w'.gh.tagRefs =
          ("refs/tags/" ++ cfg.tagName, "tagsha-" ++ toString w.gh.nextTagSha) :: w.gh.tagRefs
      ∧ w'.gh.releases = w.gh.releases ++
          [⟨w.gh.nextReleaseId, cfg.tagName, cfg.tagName, false, true⟩]
      ∧ w'.gh.branches = w.gh.branches
      ∧ w'.refFault = w.refFault
      ∧ w'.fs = w.fs
      ∧ w'.gh.releaseAssets = w.gh.releaseAssets ++
          [(w.gh.nextReleaseId,
            uploadedAsset cfg.owner cfg.repo w.gh.nextReleaseId (basename cfg.binaryPath) n)] := by
  unfold createReleaseAndUploadAsset createReleaseAndUploadAssetTry
  unfold findDefaultBranchCommit findDefaultBranchCommitLoop ghGetBranch defaultBranchCandidates
  simp only [log_gh, hbr]
  unfold createOrRetrieveGitTag ghGetRef ghCreateTag ghCreateRef
  simp only [log_refFault, hfault, log_gh, refs_tags_append, href, ne_eq, not_true_eq_false,
    if_false, decide_True, decide_False, Bool.false_eq_true, if_true]
  unfold ghCreateRelease
  unfold uploadReleaseAsset fsStat
  simp only [log_fs, hfile]
  unfold uploadReleaseAssetData fsReadFile ghUploadReleaseAsset
  simp only [log_fs, hfile]
  refine ⟨_, rfl, ?_, ?_, ?_, ?_, ?_, ?_⟩ <;> simp

/-- Running the upload sequence twice for the same (initially absent) tag:
both runs succeed and the second leaves the tag references and releases of
the store exactly as the first left them. -/
theorem createReleaseAndUploadAsset_twice (cfg : ReleasePublishConfig) (w : World)
    (c : String) (n : Nat)
    (hbr : w.gh.branches.lookup "main" = some c)
    (hfault : w.refFault = none)
    (href : w.gh.tagRefs.lookup ("refs/tags/" ++ cfg.tagName) = none)
    (hrel : findReleaseByTag w.gh.releases cfg.tagName = none)
    (hfile : w.fs.lookup cfg.binaryPath = some (.file n)) :
    ∃ url₁ w₁ url₂ w₂,
      createReleaseAndUploadAsset cfg w = (.ok url₁, w₁)
      ∧ createReleaseAndUploadAsset cfg w₁ = (.ok url₂, w₂)
      ∧ w₂.gh.tagRefs = w₁.gh.tagRefs
      ∧ w₂.gh.releases = w₁.gh.releases := by
  obtain ⟨w₁, h1, htr, hrel1, hb1, hf1, hfs1, has1⟩ :=
    createReleaseAndUploadAsset_create cfg w c n hbr hfault href hfile
  have hbr1 : w₁.gh.branches.lookup "main" = some c := by rw [hb1]; exact hbr
  have hfault1 : w₁.refFault = none := by rw [hf1]; exact hfault
  have href1 : w₁.gh.tagRefs.lookup ("refs/tags/" ++ cfg.tagName) =
      some ("tagsha-" ++ toString w.gh.nextTagSha) := by
    rw [htr]
    simp [List.lookup]
  have hrel1x : findReleaseByTag w₁.gh.releases cfg.tagName =
      some ⟨w.gh.nextReleaseId, cfg.tagName, cfg.tagName, false, true⟩ := by
    rw [hrel1]
    unfold findReleaseByTag at hrel ⊢
    rw [List.find?_append, hrel]
    simp
  have hfile1 : w₁.fs.lookup cfg.binaryPath = some (.file n) := by rw [hfs1]; exact hfile
  obtain ⟨w₂, h2, htr2, hto2, hrel2, has2⟩ :=
    createReleaseAndUploadAsset_reuse cfg w₁ c ("tagsha-" ++ toString w.gh.nextTagSha)
      ⟨w.gh.nextReleaseId, cfg.tagName, cfg.tagName, false, true⟩ n hbr1 hfault1 href1 hrel1x hfile1
  exact ⟨_, w₁, _, w₂, h1, h2, htr2, hrel2⟩

/-- C3: when the tag reference already exists the registry reuses the
existing tag object SHA and the release already associated with the tag,
creates no tag, reference or release, and still uploads the asset; only a
not-found reference read leads to creating the annotated tag, its reference
and a new release, while a non-404 read failure rethrows and creates
nothing; consequently running the upload sequence twice for the same tag
never duplicates a tag or a release. -/
theorem c3_upload_idempotent_reuse :
    (∀ (cfg : ReleasePublishConfig) (w : World) (c sha : String) (rel : Release) (n : Nat),
      w.gh.branches.lookup "main" = some c →
      w.refFault = none →
      w.gh.tagRefs.lookup ("refs/tags/" ++ cfg.tagName) = some sha →
      findReleaseByTag w.gh.releases cfg.tagName = some rel →
      w.fs.lookup cfg.binaryPath = some (.file n) →
      ∃ w', createReleaseAndUploadAsset cfg w =
          (.ok (browserDownloadUrl cfg.owner cfg.repo rel.id (basename cfg.binaryPath)), w')
        ∧ w'.gh.tagRefs = w.gh.tagRefs
        ∧ w'.gh.tagObjects = w.gh.tagObjects
        ∧ w'.gh.releases = w.gh.releases
        ∧ w'.gh.releaseAssets = w.gh.releaseAssets ++
            [(rel.id, uploadedAsset cfg.owner cfg.repo rel.id (basename cfg.binaryPath) n)])
    ∧ (∀ (p : CreateTagParams) (w : World) (sha : String),
        w.refFault = none →
        w.gh.tagRefs.lookup ("refs/tags/" ++ p.tag) = some sha →
        createOrRetrieveGitTag p w =
          (.ok (sha, true), w.log (.netGetRef p.owner p.repo ("tags/" ++ p.tag))))
    ∧ (∀ (p : CreateTagParams) (w : World),
        w.refFault = none →
        w.gh.tagRefs.lookup ("refs/tags/" ++ p.tag) = none →
        ∃ w', createOrRetrieveGitTag p w =
            (.ok ("tagsha-" ++ toString w.gh.nextTagSha, false), w')
          ∧ w'.gh.tagRefs =
              ("refs/tags/" ++ p.tag, "tagsha-" ++ toString w.gh.nextTagSha) :: w.gh.tagRefs
          ∧ w'.gh.tagObjects =
              ("tagsha-" ++ toString w.gh.nextTagSha, p.object) :: w.gh.tagObjects
          ∧ w'.gh.releases = w.gh.releases)
    ∧ (∀ (p : CreateTagParams) (w : World) (e : JsError),
        w.refFault = some e →
        e.status ≠ 404 →
        createOrRetrieveGitTag p w =
          (.error e, w.log (.netGetRef p.owner p.repo ("tags/" ++ p.tag))))
    ∧ (∀ (cfg : ReleasePublishConfig) (w : World) (c : String) (n : Nat),
        w.gh.branches.lookup "main" = some c →
        w.refFault = none →
        w.gh.tagRefs.lookup ("refs/tags/" ++ cfg.tagName) = none →
        findReleaseByTag w.gh.releases cfg.tagName = none →
        w.fs.lookup cfg.binaryPath = some (.file n) →
        ∃ url₁ w₁ url₂ w₂,
          createReleaseAndUploadAsset cfg w = (.ok url₁, w₁)
          ∧ createReleaseAndUploadAsset cfg w₁ = (.ok url₂, w₂)
          ∧ w₂.gh.tagRefs = w₁.gh.tagRefs
          ∧ w₂.gh.releases = w₁.gh.releases) :=
  ⟨createReleaseAndUploadAsset_reuse, createOrRetrieveGitTag_reuse,
    createOrRetrieveGitTag_create_new, createOrRetrieveGitTag_fault,
    createReleaseAndUploadAsset_twice⟩

/-- A store that already holds the tag, its release, and a file to upload. -/
def wIdem : World :=
  { fs := [("/b/app.apk", .file 3)]
    gh := { branches := [("main", "c0")]
            tagRefs := [("refs/tags/fingerprint.abc.ios", "sha0")]
            releases := [⟨7, "fingerprint.abc.ios", "fingerprint.abc.ios", false, true⟩] } }

/-- Witness for C3: the reuse conjunct applied in a concrete store with the
tag and release already present. -/
theorem c3_upload_idempotent_reuse_witness :
    ∃ w', createReleaseAndUploadAsset ⟨"tok", "o", "r", "fingerprint.abc.ios", "/b/app.apk"⟩
        wIdem =
        (.ok (browserDownloadUrl "o" "r" 7 (basename "/b/app.apk")), w')
      ∧ w'.gh.tagRefs = wIdem.gh.tagRefs
      ∧ w'.gh.tagObjects = wIdem.gh.tagObjects
      ∧ w'.gh.releases = wIdem.gh.releases
      ∧ w'.gh.releaseAssets = wIdem.gh.releaseAssets ++
          [(7, uploadedAsset "o" "r" 7 (basename "/b/app.apk") 3)] :=
  c3_upload_idempotent_reuse.1 ⟨"tok", "o", "r", "fingerprint.abc.ios", "/b/app.apk"⟩ wIdem
    "c0" "sha0" ⟨7, "fingerprint.abc.ios", "fingerprint.abc.ios", false, true⟩ 3
    (by decide) rfl (by decide) (by decide) (by decide)

end ExpoGithubCache
